import Mathlib

/-!
A shallow embedding, in Lean 4, of the hyperparameter-optimization driver
`espresso/hparam_optim.py`, together with theorems settling the claims of
the natural-language specification against it.

Modelling conventions:
* A Python value in a parameter assignment is represented by its default
  string rendering (`str(v)`), which is the only operation the driver ever
  applies to it (so `run_id = 1.0` is represented by the string "1.0").
* A Python dict is represented by an insertion-ordered association list
  with distinct keys; iteration order of the dict is the list order.
* The two external subprocess launches are represented by an explicit
  `World` function from an argument vector to either an exit code
  (non-zero exit, which `subprocess.check_output` turns into a raised
  `CalledProcessError`) or the captured standard output.
* The in-place mutation of the global `args` object is represented by
  explicit state passing: `objective_func` returns the updated `Config`
  besides its result, and also the list of command strings it executed
  (the observable interaction with the operating system).
* `str.replace` is embedded as `replaceL`, a left-to-right non-overlapping
  replacement of every occurrence of a (non-empty) pattern, driven by a
  fuel argument so that it is structurally recursive and computable by
  kernel reduction; the fuel is always the length of the subject string,
  which is enough for the scan to finish.
* `float(...)` applied to the eval command's captured output is embedded
  as `pyFloat`, an exact-rational parser of the decimal / scientific
  floating-point literal grammar with surrounding whitespace stripped.
  (The binary rounding of CPython floats, the `inf` / `nan` spellings and
  digit-group underscores are outside the modelled subset; no claim
  depends on them.)
-/

deriving instance DecidableEq for Except

namespace Espresso

/-- A parameter assignment (`hparams` dict): insertion-ordered mapping from
parameter name to the string rendering of its value. -/
abbrev HParams := List (String × String)

/-- The mutable global `args` namespace produced by `argparse`, restricted to
the fields `objective_func` reads or writes: `--train-command`,
`--train-arguments`, `--eval-command` and `--maximize`. -/
structure Config where
  train_command : String
  train_arguments : String
  eval_command : String
  maximize : Bool
deriving DecidableEq

/-- The placeholder token `parse_runid` replaces (source line 67);
written with escaped braces. -/
def runIdToken : String := "\x7b\x7bRUN_ID\x7d\x7d"

/-- Fuel-driven core of Python `str.replace`: replace every left-to-right
non-overlapping occurrence of `pat` by `rep`.  The fuel bounds recursion
depth; with `s.length` fuel the scan always completes. -/
def replaceLAux (pat rep : List Char) : Nat → List Char → List Char
  | _, [] => []
  | 0, s => s
  | fuel + 1, c :: rest =>
    if pat ≠ [] ∧ pat <+: (c :: rest) then
      rep ++ replaceLAux pat rep fuel ((c :: rest).drop pat.length)
    else
      c :: replaceLAux pat rep fuel rest

/-- Python `s.replace(pat, rep)` for a non-empty pattern `pat`. -/
def replaceL (pat rep s : List Char) : List Char :=
  replaceLAux pat rep s.length s

/-- Source lines 66-67:
`def parse_runid(text, run_id): return text.replace('..RUN_ID..', run_id)`
(the pattern being the literal placeholder token). -/
def parse_runid (text run_id : String) : String :=
  ⟨replaceL runIdToken.data run_id.data text.data⟩

/-- Source line 71: `str(hparams['run_id']).replace('.', '')` — the run
identifier derived from the rendered `run_id` value by deleting every
decimal point. -/
def deriveRunId (v : String) : String :=
  ⟨replaceL ['.'] [] v.data⟩

/-- Source lines 58-64: serialize an assignment into a command-line flag
string, appending `" --k v"` for every key in iteration order and skipping
the reserved key `run_id`. -/
def parse_params (params_dict : HParams) : String :=
  params_dict.foldl
    (fun parsed kv =>
      if kv.1 = "run_id" then parsed
      else parsed ++ " --" ++ kv.1 ++ " " ++ kv.2)
    ""

/-- Python `command.split(' ')` on the character list: split on every single
space, keeping empty segments (so consecutive spaces yield empty strings).
The result is never empty. -/
def splitSpaces : List Char → List (List Char)
  | [] => [[]]
  | c :: rest =>
    match splitSpaces rest with
    | [] => [[]]
    | g :: gs => if c = ' ' then [] :: g :: gs else (c :: g) :: gs

/-- Python `command.split(' ')` at the `String` level. -/
def pySplit (s : String) : List String :=
  (splitSpaces s.data).map String.mk

/-- The external operating system: maps an argument vector to the exit code
of a failing process (`Except.error code`, `code ≠ 0` in any real run) or to
the captured standard output of a succeeding one (`Except.ok out`). -/
abbrev World := List String → Except Nat String

/-- Source lines 55-56:
`def exec(command): return subprocess.check_output(command.split(' '))` —
the command string is split on single spaces with no shell interpretation
and handed to the world; a non-zero exit propagates as an error. -/
def exec (w : World) (command : String) : Except Nat String :=
  w (pySplit command)

/-- Whitespace stripped by `float(...)` around the literal. -/
def isWsChar (c : Char) : Bool :=
  c = ' ' || c = '\t' || c = '\n' || c = '\r' || c = '\x0b' || c = '\x0c'

/-- ASCII digit test. -/
def isDig (c : Char) : Bool :=
  '0' ≤ c && c ≤ '9'

/-- Value of a digit string, most significant first. -/
def digitsToNat (ds : List Char) : Nat :=
  ds.foldl (fun a c => a * 10 + (c.toNat - 48)) 0

/-- Parse the optional exponent suffix of a float literal (`e`/`E`, an
optional sign, then at least one digit, consuming the whole remainder). -/
def parseExp : List Char → Option Int
  | [] => some 0
  | c :: t =>
    if c = 'e' || c = 'E' then
      let (sgn, t') : Int × List Char :=
        match t with
        | '+' :: u => (1, u)
        | '-' :: u => (-1, u)
        | u => (1, u)
      let ds := t'.takeWhile isDig
      let rest := t'.dropWhile isDig
      if ds = [] || rest ≠ [] then none
      else some (sgn * (digitsToNat ds : Int))
    else none

/-- Parse a stripped float literal: optional sign, integer digits, optional
point and fraction digits (at least one digit overall), optional exponent.
Returns the exact rational value of the literal. -/
def pyFloatCore (s : List Char) : Option Rat :=
  let (sgn, s1) : Int × List Char :=
    match s with
    | '+' :: t => (1, t)
    | '-' :: t => (-1, t)
    | t => (1, t)
  let ip := s1.takeWhile isDig
  let r1 := s1.dropWhile isDig
  let (fp, r2) : List Char × List Char :=
    match r1 with
    | '.' :: t => (t.takeWhile isDig, t.dropWhile isDig)
    | t => ([], t)
  if ip = [] && fp = [] then none
  else
    match parseExp r2 with
    | none => none
    | some e =>
      let mant : Int := sgn * (digitsToNat (ip ++ fp) : Int)
      let e' : Int := e - (fp.length : Int)
      some (if 0 ≤ e' then mkRat (mant * ((10 ^ e'.toNat : Nat) : Int)) 1
            else mkRat mant (10 ^ (-e').toNat))

/-- Source line 84: `float(result)` on the eval command's captured output —
strip surrounding whitespace, then parse the whole remainder as one
floating-point literal. -/
def pyFloat (s : String) : Option Rat :=
  pyFloatCore (((s.data.dropWhile isWsChar).reverse.dropWhile isWsChar).reverse)

/-- The two ways one `objective_func` call can raise: a subprocess exiting
non-zero (`subprocess.CalledProcessError`, carrying the command and exit
code) or eval output that `float` cannot parse (`ValueError`). -/
inductive ObjError where
  | execFailed (cmd : String) (code : Nat)
  | parseFailed (output : String)
deriving DecidableEq

/-- Source lines 70-76: when the assignment carries a `run_id` key, derive
the run identifier and rewrite the three command-template fields of the
shared `args` in place; otherwise leave `args` untouched. -/
def substConfig (args : Config) (hparams : HParams) : Config :=
  match List.lookup "run_id" hparams with
  | some v =>
    let run_id := deriveRunId v
    { args with
      train_arguments := parse_runid args.train_arguments run_id
      train_command := parse_runid args.train_command run_id
      eval_command := parse_runid args.eval_command run_id }
  | none => args

/-- Source line 80: the full train command string,
`args.train_command + ' ' + args.train_arguments + parsed_params`. -/
def trainCmdLine (args : Config) (hparams : HParams) : String :=
  args.train_command ++ " " ++ args.train_arguments ++ parse_params hparams

/-- Source lines 69-89, `objective_func(hparams)`: substitute the run id
into the shared templates (mutating them), run the train command, run the
eval command, parse its output as a float and negate it in maximize mode.
Returns the result (or the raised error), the updated shared `args`, and
the list of command strings executed, in order. -/
def objective_func (w : World) (args : Config) (hparams : HParams) :
    Except ObjError Rat × Config × List String :=
  let cfg := substConfig args hparams
  let trainCmd := trainCmdLine cfg hparams
  match exec w trainCmd with
  | .error code => (.error (.execFailed trainCmd code), cfg, [trainCmd])
  | .ok _ =>
    match exec w cfg.eval_command with
    | .error code =>
      (.error (.execFailed cfg.eval_command code), cfg, [trainCmd, cfg.eval_command])
    | .ok out =>
      match pyFloat out with
      | none => (.error (.parseFailed out), cfg, [trainCmd, cfg.eval_command])
      | some v =>
        (.ok (if cfg.maximize then -v else v), cfg, [trainCmd, cfg.eval_command])

/-- Spec-side serializer, following the words of the claim: the
concatenation, over the keys in iteration order, of `" --k v"`, skipping
exactly the key `run_id`. -/
def parse_params_spec (ps : HParams) : String :=
  String.join ((ps.filter (fun kv => kv.1 != "run_id")).map
    (fun kv => " --" ++ kv.1 ++ " " ++ kv.2))

/-- Spec-side inverse of argv splitting: join the segments back with single
spaces. -/
def joinSpaces : List (List Char) → List Char
  | [] => []
  | [g] => g
  | g :: g' :: gs => g ++ ' ' :: joinSpaces (g' :: gs)

/-- Spec-side flag parser (round-trip direction of the claim): consume the
space-split tokens two at a time as a `--key value` pair. -/
def parsePairsL : List (List Char) → Option HParams
  | [] => some []
  | [_] => none
  | k :: v :: rest =>
    match k with
    | '-' :: '-' :: kname =>
      (parsePairsL rest).map (fun l => (String.mk kname, String.mk v) :: l)
    | _ => none

/-- Spec-side parser of a serialized flag string: split on spaces, expect
the leading empty segment produced by the leading space, then read
`--key value` pairs. -/
def parseFlags (s : String) : Option HParams :=
  match splitSpaces s.data with
  | [] :: rest => parsePairsL rest
  | _ => none

/-- The space-split segments that serializing an assignment produces after
the leading empty segment: `--key` then the value, for each pair. -/
def pairGroups : HParams → List (List Char)
  | [] => []
  | kv :: rest => ('-' :: '-' :: kv.1.data) :: kv.2.data :: pairGroups rest

/-- A world in which every process succeeds and prints `0.5`. -/
def wOk : World := fun _ => .ok "0.5"

/-- Concrete scenario templates for the two-successive-runs claim: all
three templates mention the run-id placeholder. -/
def cfgC1 : Config :=
  ⟨"train_" ++ runIdToken ++ ".sh", "--dir exp_" ++ runIdToken,
    "eval.sh exp_" ++ runIdToken, false⟩

/-- First assignment of the scenario: `run_id = 1.0`, `lr = 0.1`. -/
def hp1 : HParams := [("run_id", "1.0"), ("lr", "0.1")]

/-- Second assignment of the scenario: `run_id = 2.0`, `lr = 0.1`. -/
def hp2 : HParams := [("run_id", "2.0"), ("lr", "0.1")]

/-- A world in which every process succeeds and prints `2.5`. -/
def w7 : World := fun _ => .ok "2.5"

/-- A world that fails the concrete train command with exit code 1 and lets
everything else succeed. -/
def w8 : World := fun argv =>
  if argv = pySplit "train.sh  --lr 0.1" then .error 1 else .ok "0"

/-- Configuration for the train-failure witness. -/
def cfg8 : Config := ⟨"train.sh", "", "eval.sh", false⟩

/-- Assignment for the train-failure witness. -/
def hp8 : HParams := [("lr", "0.1")]

/-- A world whose eval command prints the non-numeric output `abc`. -/
def w9 : World := fun argv =>
  if argv = ["eval.sh"] then .ok "abc" else .ok ""

/-- Configuration for the parse-failure witness. -/
def cfg9 : Config := ⟨"t", "", "eval.sh", false⟩

/-! ## Theorems -/

lemma parse_params_foldl_acc (ps : HParams) (acc : String) :
    ps.foldl
      (fun parsed kv =>
        if kv.1 = "run_id" then parsed
        else parsed ++ " --" ++ kv.1 ++ " " ++ kv.2) acc
      = acc ++ ps.foldl
          (fun parsed kv =>
            if kv.1 = "run_id" then parsed
            else parsed ++ " --" ++ kv.1 ++ " " ++ kv.2) "" := by
  induction ps generalizing acc with
  | nil => simp [String.append_empty]
  | cons kv ps ih =>
    simp only [List.foldl_cons]
    rw [ih, ih (if kv.1 = "run_id" then "" else "" ++ " --" ++ kv.1 ++ " " ++ kv.2)]
    by_cases h : kv.1 = "run_id" <;>
      simp [h, String.append_assoc, String.empty_append]

lemma parse_params_cons (kv : String × String) (ps : HParams) :
    parse_params (kv :: ps) =
      (if kv.1 = "run_id" then "" else " --" ++ kv.1 ++ " " ++ kv.2)
        ++ parse_params ps := by
  unfold parse_params
  simp only [List.foldl_cons]
  rw [parse_params_foldl_acc]
  by_cases h : kv.1 = "run_id" <;> simp [h, String.empty_append]

lemma string_join_cons (s : String) (l : List String) :
    String.join (s :: l) = s ++ String.join l := by
  have acc : ∀ (l : List String) (a : String),
      l.foldl (fun r s => r ++ s) a = a ++ l.foldl (fun r s => r ++ s) "" := by
    intro l
    induction l with
    | nil => intro a; simp [String.append_empty]
    | cons x xs ih =>
      intro a
      simp only [List.foldl_cons]
      rw [ih, ih ("" ++ x), String.empty_append, String.append_assoc]
  show (s :: l).foldl (fun r s => r ++ s) "" = s ++ l.foldl (fun r s => r ++ s) ""
  rw [List.foldl_cons, acc, String.empty_append]

lemma replaceLAux_no_occur (pat rep : List Char) :
    ∀ (fuel : Nat) (s : List Char), ¬ pat <:+: s → replaceLAux pat rep fuel s = s := by
  intro fuel
  induction fuel with
  | zero => intro s _; cases s <;> rfl
  | succ fuel ih =>
    intro s hs
    cases s with
    | nil => rfl
    | cons c rest =>
      have hnp : ¬ (pat ≠ [] ∧ pat <+: (c :: rest)) := by
        rintro ⟨-, hpre⟩
        exact hs hpre.isInfix
      rw [replaceLAux, if_neg hnp]
      have : ¬ pat <:+: rest := fun h => hs (List.infix_cons h)
      rw [ih rest this]

lemma singleton_pre_cons (p c : Char) (rest : List Char) :
    [p] <+: (c :: rest) ↔ c = p := by
  constructor
  · rintro ⟨t, ht⟩
    exact (List.cons.injEq _ _ _ _ ▸ ht).1.symm
  · rintro rfl
    exact ⟨rest, rfl⟩

lemma replaceLAux_dot :
    ∀ (fuel : Nat) (s : List Char), s.length ≤ fuel →
      replaceLAux ['.'] [] fuel s = s.filter (fun c => c != '.') := by
  intro fuel
  induction fuel with
  | zero =>
    intro s hs
    have : s = [] := List.eq_nil_of_length_eq_zero (Nat.le_zero.mp hs)
    subst this; rfl
  | succ fuel ih =>
    intro s hs
    cases s with
    | nil => rfl
    | cons c rest =>
      by_cases hc : c = '.'
      · have hp : (['.'] : List Char) ≠ [] ∧ ['.'] <+: (c :: rest) :=
          ⟨by simp, (singleton_pre_cons '.' c rest).mpr hc⟩
        rw [replaceLAux, if_pos hp]
        subst hc
        simp only [List.length_cons, List.length_nil, Nat.zero_add,
          List.drop_succ_cons, List.drop_zero, List.nil_append]
        rw [ih rest (by simpa using Nat.le_of_succ_le_succ hs)]
        rw [List.filter_cons]
        simp
      · have hnp : ¬ ((['.'] : List Char) ≠ [] ∧ ['.'] <+: (c :: rest)) := by
          rintro ⟨-, hpre⟩
          exact hc ((singleton_pre_cons '.' c rest).mp hpre)
        rw [replaceLAux, if_neg hnp]
        rw [ih rest (by simpa using Nat.le_of_succ_le_succ hs)]
        rw [List.filter_cons]
        simp [hc]

/-- C3 — `parse_params` returns the concatenation, over the keys in the
mapping's iteration order, of `" --k v"`, skipping exactly the reserved key
`run_id`; an assignment that is empty or contains only `run_id` serializes
to the empty string. -/
theorem c3_parse_params_serialization :
    (∀ ps : HParams, parse_params ps = parse_params_spec ps)
    ∧ parse_params ([] : HParams) = ""
    ∧ (∀ v : String, parse_params [("run_id", v)] = "") := by
  refine ⟨?_, by decide, fun v => by simp [parse_params]⟩
  intro ps
  induction ps with
  | nil => rfl
  | cons kv ps ih =>
    rw [parse_params_cons, ih]
    unfold parse_params_spec
    by_cases h : kv.1 = "run_id"
    · simp [h, List.filter, String.empty_append]
    · have hb : (kv.1 != "run_id") = true := by
        simpa using h
      simp only [List.filter, hb, List.map, string_join_cons]
      rw [if_neg h, String.append_assoc, String.append_assoc, String.append_assoc]

/-- C5 — run-id derivation is a deterministic function of the rendered
`run_id` value: it deletes every decimal point from the default string
rendering of the value, so equal values give equal identifiers, and `3.5`
yields `"35"` (likewise `3.0` yields `"30"`). -/
theorem c5_run_id_derivation :
    (∀ a b : String, a = b → deriveRunId a = deriveRunId b)
    ∧ (∀ v : String, (deriveRunId v).data = v.data.filter (fun c => c != '.'))
    ∧ deriveRunId "3.5" = "35"
    ∧ deriveRunId "3.0" = "30" := by
  refine ⟨fun a b h => by rw [h], ?_, by decide, by decide⟩
  intro v
  show replaceL ['.'] [] v.data = v.data.filter (fun c => c != '.')
  exact replaceLAux_dot v.data.length v.data le_rfl

/-- Witness for C5 at a concrete input. -/
theorem c5_witness : deriveRunId "3.5" = deriveRunId "3.5" :=
  c5_run_id_derivation.1 "3.5" "3.5" rfl

/-- C6 — run-id substitution leaves any text without an occurrence of the
placeholder token unchanged. -/
theorem c6_substitution_no_token (text run_id : String)
    (h : ¬ runIdToken.data <:+: text.data) :
    parse_runid text run_id = text := by
  unfold parse_runid replaceL
  rw [replaceLAux_no_occur runIdToken.data run_id.data text.data.length text.data h]

/-- Witness for C6 at a concrete input. -/
theorem c6_witness : parse_runid "hello" "7" = "hello" :=
  c6_substitution_no_token "hello" "7" (by decide)

lemma substConfig_none (args : Config) (hp : HParams)
    (h : List.lookup "run_id" hp = none) : substConfig args hp = args := by
  unfold substConfig
  rw [h]

lemma substConfig_some (args : Config) (hp : HParams) (v : String)
    (h : List.lookup "run_id" hp = some v) :
    substConfig args hp =
      { args with
        train_arguments := parse_runid args.train_arguments (deriveRunId v)
        train_command := parse_runid args.train_command (deriveRunId v)
        eval_command := parse_runid args.eval_command (deriveRunId v) } := by
  unfold substConfig
  rw [h]

lemma substConfig_maximize (args : Config) (hp : HParams) (b : Bool) :
    substConfig { args with maximize := b } hp
      = { substConfig args hp with maximize := b } := by
  unfold substConfig
  cases h : List.lookup "run_id" hp <;> rfl

lemma substConfig_keeps_maximize (args : Config) (hp : HParams) :
    (substConfig args hp).maximize = args.maximize := by
  unfold substConfig
  cases h : List.lookup "run_id" hp <;> rfl

lemma objective_config (w : World) (args : Config) (hp : HParams) :
    (objective_func w args hp).2.1 = substConfig args hp := by
  cases hx : exec w (trainCmdLine (substConfig args hp) hp) with
  | error code => simp [objective_func, hx]
  | ok s =>
    cases hy : exec w (substConfig args hp).eval_command with
    | error code => simp [objective_func, hx, hy]
    | ok out =>
      cases hz : pyFloat out with
      | none => simp [objective_func, hx, hy, hz]
      | some v => simp [objective_func, hx, hy, hz]

lemma objective_trace_head (w : World) (args : Config) (hp : HParams) :
    (objective_func w args hp).2.2.head?
      = some (trainCmdLine (substConfig args hp) hp) := by
  cases hx : exec w (trainCmdLine (substConfig args hp) hp) with
  | error code => simp [objective_func, hx]
  | ok s =>
    cases hy : exec w (substConfig args hp).eval_command with
    | error code => simp [objective_func, hx, hy]
    | ok out =>
      cases hz : pyFloat out with
      | none => simp [objective_func, hx, hy, hz]
      | some v => simp [objective_func, hx, hy, hz]

/-- C2 — `objective_func` rewrites the three command-template fields of the
shared configuration in place exactly when the assignment carries a
`run_id` key (and the returned — persisting — configuration is that
rewritten one); when `run_id` is absent the configuration is unchanged and
the executed train command is the verbatim rendering of the untouched
templates, token occurrences included. -/
theorem c2_template_mutation (w : World) (args : Config) (hp : HParams) :
    (objective_func w args hp).2.1 = substConfig args hp
    ∧ (∀ v : String, List.lookup "run_id" hp = some v →
        substConfig args hp =
          { args with
            train_arguments := parse_runid args.train_arguments (deriveRunId v)
            train_command := parse_runid args.train_command (deriveRunId v)
            eval_command := parse_runid args.eval_command (deriveRunId v) })
    ∧ (List.lookup "run_id" hp = none →
        substConfig args hp = args
        ∧ (objective_func w args hp).2.2.head?
            = some (args.train_command ++ " " ++ args.train_arguments
                      ++ parse_params hp)) := by
  refine ⟨objective_config w args hp, fun v hv => substConfig_some args hp v hv,
    fun hn => ⟨substConfig_none args hp hn, ?_⟩⟩
  rw [objective_trace_head w args hp, substConfig_none args hp hn]
  rfl

/-- Witness for C2 at a concrete input carrying a `run_id` key. -/
theorem c2_witness :
    substConfig ⟨"t", "exp_" ++ runIdToken, "e", false⟩ [("run_id", "1.0")]
      = { (⟨"t", "exp_" ++ runIdToken, "e", false⟩ : Config) with
          train_arguments := parse_runid ("exp_" ++ runIdToken) (deriveRunId "1.0")
          train_command := parse_runid "t" (deriveRunId "1.0")
          eval_command := parse_runid "e" (deriveRunId "1.0") } :=
  (c2_template_mutation wOk ⟨"t", "exp_" ++ runIdToken, "e", false⟩
    [("run_id", "1.0")]).2.1 "1.0" (by decide)

/-- C7 — maximize mode is a pure sign flip: for the same assignment, the
same templates and the same external world, the value returned with the
maximize flag set is the negation of the value returned with it unset. -/
theorem c7_maximize_sign_flip (tc ta ec : String) (w : World) (hp : HParams)
    (v : Rat)
    (h : (objective_func w ⟨tc, ta, ec, false⟩ hp).1 = .ok v) :
    (objective_func w ⟨tc, ta, ec, true⟩ hp).1 = .ok (-v) := by
  have hsub : substConfig ⟨tc, ta, ec, true⟩ hp
      = { substConfig ⟨tc, ta, ec, false⟩ hp with maximize := true } :=
    substConfig_maximize ⟨tc, ta, ec, false⟩ hp true
  have hmax : (substConfig ⟨tc, ta, ec, false⟩ hp).maximize = false :=
    substConfig_keeps_maximize ⟨tc, ta, ec, false⟩ hp
  have htrain : trainCmdLine
      { substConfig ⟨tc, ta, ec, false⟩ hp with maximize := true } hp
      = trainCmdLine (substConfig ⟨tc, ta, ec, false⟩ hp) hp := rfl
  have heval : ({ substConfig ⟨tc, ta, ec, false⟩ hp with
      maximize := true } : Config).eval_command
      = (substConfig ⟨tc, ta, ec, false⟩ hp).eval_command := rfl
  cases hx : exec w (trainCmdLine (substConfig ⟨tc, ta, ec, false⟩ hp) hp) with
  | error code => simp [objective_func, hx] at h
  | ok s =>
    cases hy : exec w (substConfig ⟨tc, ta, ec, false⟩ hp).eval_command with
    | error code => simp [objective_func, hx, hy] at h
    | ok out =>
      cases hz : pyFloat out with
      | none => simp [objective_func, hx, hy, hz] at h
      | some r =>
        have hrv : r = v := by
          simpa [objective_func, hx, hy, hz, hmax] using h
        subst hrv
        simp [objective_func, hsub, htrain, heval, hx, hy, hz]

/-- Witness for C7 at a concrete input. -/
theorem c7_witness :
    (objective_func w7 ⟨"t", "", "e", false⟩ []).1 = .ok (mkRat 5 2)
    ∧ (objective_func w7 ⟨"t", "", "e", true⟩ []).1 = .ok (-(mkRat 5 2)) :=
  ⟨by decide, c7_maximize_sign_flip "t" "" "e" w7 [] (mkRat 5 2) (by decide)⟩

/-- C8 — if the train subprocess exits non-zero, `objective_func`
propagates the execution failure: it returns the raised error, and the
train command is the only command it ever executed (the eval command never
runs, and no scalar is returned). -/
theorem c8_train_failure_propagates (w : World) (args : Config)
    (hp : HParams) (code : Nat)
    (h : exec w (trainCmdLine (substConfig args hp) hp) = .error code) :
    (objective_func w args hp).1
      = .error (.execFailed (trainCmdLine (substConfig args hp) hp) code)
    ∧ (objective_func w args hp).2.2
      = [trainCmdLine (substConfig args hp) hp] := by
  constructor <;> simp [objective_func, h]

/-- Witness for C8 at a concrete input whose train process fails. -/
theorem c8_witness :
    (objective_func w8 cfg8 hp8).1
      = .error (.execFailed (trainCmdLine (substConfig cfg8 hp8) hp8) 1)
    ∧ (objective_func w8 cfg8 hp8).2.2
      = [trainCmdLine (substConfig cfg8 hp8) hp8] :=
  c8_train_failure_propagates w8 cfg8 hp8 1 (by decide)

/-- C9 — `objective_func` interprets the eval subprocess's entire standard
output as one floating-point literal: when the output parses it returns
that number, negated exactly when maximize mode is set; when the output is
not a valid literal it raises a parsing error instead of returning a
value. -/
theorem c9_eval_output_parsing (w : World) (args : Config) (hp : HParams)
    (s out : String)
    (hTrain : exec w (trainCmdLine (substConfig args hp) hp) = .ok s)
    (hEval : exec w (substConfig args hp).eval_command = .ok out) :
    (pyFloat out = none →
      (objective_func w args hp).1 = .error (.parseFailed out))
    ∧ (∀ v : Rat, pyFloat out = some v →
        (objective_func w args hp).1
          = .ok (if args.maximize then -v else v)) := by
  constructor
  · intro hnone
    simp [objective_func, hTrain, hEval, hnone]
  · intro v hv
    simp [objective_func, hTrain, hEval, hv, substConfig_keeps_maximize]

/-- Witness for C9 at a concrete input whose eval output is not numeric. -/
theorem c9_witness :
    (objective_func w9 cfg9 []).1 = .error (.parseFailed "abc") :=
  (c9_eval_output_parsing w9 cfg9 [] "" "abc" (by decide) (by decide)).1
    (by decide)

lemma splitSpaces_ne_nil (l : List Char) : splitSpaces l ≠ [] := by
  cases l with
  | nil => simp [splitSpaces]
  | cons c rest =>
    simp only [splitSpaces]
    cases h : splitSpaces rest with
    | nil => simp
    | cons g gs => by_cases hc : c = ' ' <;> simp [hc]

lemma joinSpaces_cons (c : Char) (g : List Char) (gs : List (List Char)) :
    joinSpaces ((c :: g) :: gs) = c :: joinSpaces (g :: gs) := by
  cases gs <;> rfl

lemma splitSpaces_space (x : List Char) :
    splitSpaces (' ' :: x) = [] :: splitSpaces x := by
  cases h : splitSpaces x with
  | nil => exact absurd h (splitSpaces_ne_nil x)
  | cons g gs => simp [splitSpaces, h]

lemma splitSpaces_nospace_cons (c : Char) (x : List Char) (hc : c ≠ ' ') :
    splitSpaces (c :: x)
      = (c :: (splitSpaces x).headI) :: (splitSpaces x).tail := by
  cases h : splitSpaces x with
  | nil => exact absurd h (splitSpaces_ne_nil x)
  | cons g gs => simp [splitSpaces, h, hc]

lemma joinSpaces_splitSpaces (l : List Char) :
    joinSpaces (splitSpaces l) = l := by
  induction l with
  | nil => rfl
  | cons c rest ih =>
    cases h : splitSpaces rest with
    | nil => exact absurd h (splitSpaces_ne_nil rest)
    | cons g gs =>
      rw [h] at ih
      by_cases hc : c = ' '
      · subst hc
        rw [splitSpaces_space, h]
        show joinSpaces ([] :: g :: gs) = ' ' :: rest
        rw [joinSpaces]
        rw [ih]
        rfl
      · rw [splitSpaces_nospace_cons c rest hc, h]
        simp only [List.headI, List.tail]
        rw [joinSpaces_cons, ih]

lemma splitSpaces_no_space (l : List Char) :
    ∀ g ∈ splitSpaces l, ' ' ∉ g := by
  induction l with
  | nil =>
    intro g hg
    simp [splitSpaces] at hg
    simp [hg]
  | cons c rest ih =>
    intro g hg
    cases h : splitSpaces rest with
    | nil => exact absurd h (splitSpaces_ne_nil rest)
    | cons g0 gs =>
      rw [h] at ih
      by_cases hc : c = ' '
      · subst hc
        rw [splitSpaces_space, h] at hg
        rcases (List.mem_cons).mp hg with hg' | hg'
        · simp [hg']
        · exact ih g hg'
      · rw [splitSpaces_nospace_cons c rest hc, h] at hg
        simp only [List.headI, List.tail] at hg
        rcases (List.mem_cons).mp hg with hg' | hg'
        · subst hg'
          intro hmem
          rcases (List.mem_cons).mp hmem with h' | h'
          · exact hc h'.symm
          · exact ih g0 (by simp) h'
        · exact ih g (by simp [hg'])

/-- C10 — every executed command's argument vector is obtained by splitting
the command string on single spaces, with no shell interpretation: the
segments are exactly the space-free pieces that reassemble to the command
when rejoined with single spaces; a value containing a space is therefore
passed as multiple argv entries, and consecutive spaces produce
empty-string entries. -/
theorem c10_argv_splitting :
    (∀ (w : World) (command : String), exec w command = w (pySplit command))
    ∧ (∀ (s g : String), g ∈ pySplit s → ' ' ∉ g.data)
    ∧ (∀ s : String, joinSpaces ((pySplit s).map String.data) = s.data)
    ∧ pySplit "run.sh --k a b" = ["run.sh", "--k", "a", "b"]
    ∧ pySplit "run.sh  --k v" = ["run.sh", "", "--k", "v"] := by
  refine ⟨fun w command => rfl, ?_, ?_, by decide, by decide⟩
  · intro s g hg
    obtain ⟨g0, hg0, rfl⟩ := List.mem_map.mp hg
    exact splitSpaces_no_space s.data g0 hg0
  · intro s
    have : (pySplit s).map String.data = splitSpaces s.data := by
      simp only [pySplit, List.map_map]
      exact List.map_id _
    rw [this]
    exact joinSpaces_splitSpaces s.data

/-- Witness for C10 at a concrete input. -/
theorem c10_witness : ' ' ∉ ("run.sh" : String).data :=
  c10_argv_splitting.2.1 "run.sh --k a b" "run.sh" (by decide)

/-- C1 counterexample — for the concrete shared templates of `cfgC1` (all
mentioning the placeholder) and the two successive in-process evaluations
on `hp1` (`run_id = 1.0`) and then `hp2` (`run_id = 2.0`), the executed
command strings of the second call are identical to those of the first —
not distinct — and `"20"` occurs nowhere in the second train command. -/
theorem c1_counterexample :
    (objective_func wOk (objective_func wOk cfgC1 hp1).2.1 hp2).2.2
      = (objective_func wOk cfgC1 hp1).2.2
    ∧ ¬ (("20" : String).data <:+:
          (trainCmdLine
            (substConfig (objective_func wOk cfgC1 hp1).2.1 hp2) hp2).data) := by
  decide

/-- C1 amended — in the scenario of `cfgC1`, `hp1`, `hp2`, the first call
substitutes the identifier `"10"` into the shared templates in place, so
both calls render exactly the same command strings, containing `"10"`; the
second call never produces a command containing `"20"`. -/
theorem c1_run_id_reuse_renders_equal :
    (objective_func wOk cfgC1 hp1).2.2
      = ["train_10.sh --dir exp_10 --lr 0.1", "eval.sh exp_10"]
    ∧ (objective_func wOk (objective_func wOk cfgC1 hp1).2.1 hp2).2.2
      = ["train_10.sh --dir exp_10 --lr 0.1", "eval.sh exp_10"] := by
  decide

lemma splitSpaces_append_nospace :
    ∀ (pre ys g : List Char) (gs : List (List Char)),
      (∀ c ∈ pre, c ≠ ' ') → splitSpaces ys = g :: gs →
      splitSpaces (pre ++ ys) = (pre ++ g) :: gs := by
  intro pre
  induction pre with
  | nil => intro ys g gs _ h; simpa using h
  | cons c pre' ih =>
    intro ys g gs hw h
    have hc : c ≠ ' ' := hw c (by simp)
    have hrec := ih ys g gs (fun d hd => hw d (by simp [hd])) h
    rw [List.cons_append, splitSpaces_nospace_cons c (pre' ++ ys) hc, hrec]
    simp [List.headI, List.tail]

lemma pp_split (ps : HParams)
    (h : ∀ kv ∈ ps, kv.1 ≠ "run_id"
        ∧ (∀ c ∈ kv.1.data, c ≠ ' ') ∧ (∀ c ∈ kv.2.data, c ≠ ' ')) :
    splitSpaces (parse_params ps).data = [] :: pairGroups ps := by
  induction ps with
  | nil => rfl
  | cons kv ps ih =>
    obtain ⟨hk, hks, hvs⟩ := h kv (by simp)
    have ih' := ih (fun kv' hkv' => h kv' (by simp [hkv']))
    rw [parse_params_cons, if_neg hk]
    have hdata : ((" --" ++ kv.1 ++ " " ++ kv.2) ++ parse_params ps).data
        = ' ' :: (('-' :: '-' :: kv.1.data)
            ++ (' ' :: (kv.2.data ++ (parse_params ps).data))) := by
      simp [String.data_append]
    rw [hdata]
    rw [splitSpaces_space]
    have hval : splitSpaces (kv.2.data ++ (parse_params ps).data)
        = kv.2.data :: pairGroups ps := by
      have := splitSpaces_append_nospace kv.2.data (parse_params ps).data
        [] (pairGroups ps) hvs ih'
      simpa using this
    have hmid : splitSpaces (' ' :: (kv.2.data ++ (parse_params ps).data))
        = [] :: kv.2.data :: pairGroups ps := by
      rw [splitSpaces_space, hval]
    have hkey : splitSpaces (('-' :: '-' :: kv.1.data)
        ++ (' ' :: (kv.2.data ++ (parse_params ps).data)))
        = ('-' :: '-' :: kv.1.data) :: kv.2.data :: pairGroups ps := by
      have hnos : ∀ c ∈ ('-' :: '-' :: kv.1.data), c ≠ ' ' := by
        intro c hc
        rcases (List.mem_cons).mp hc with rfl | hc'
        · simp
        · rcases (List.mem_cons).mp hc' with rfl | hc''
          · simp
          · exact hks c hc''
      have := splitSpaces_append_nospace ('-' :: '-' :: kv.1.data)
        (' ' :: (kv.2.data ++ (parse_params ps).data))
        [] (kv.2.data :: pairGroups ps) hnos hmid
      simpa using this
    rw [hkey]
    rfl

lemma parsePairsL_pairGroups (ps : HParams) :
    parsePairsL (pairGroups ps) = some ps := by
  induction ps with
  | nil => rfl
  | cons kv ps ih =>
    show parsePairsL (('-' :: '-' :: kv.1.data)
        :: kv.2.data :: pairGroups ps) = some (kv :: ps)
    rw [parsePairsL]
    rw [ih]
    rfl

/-- C4 counterexample — the round trip fails as universally stated: the
assignment `[("k", "a b")]`, whose value's rendering contains a space,
serializes to `" --k a b"`, which does not parse back to the original
mapping (the parser reads `a` as the value and then finds the stray token
`b`). -/
theorem c4_counterexample :
    parseFlags (parse_params [("k", "a b")]) ≠ some [("k", "a b")] := by
  decide

/-- C4 amended — for every assignment without a `run_id` key in which no
key and no rendered value contains a space character, serializing to a
flag string and parsing the string back as `--key value` pairs yields the
original mapping. -/
theorem c4_round_trip (ps : HParams)
    (h : ∀ kv ∈ ps, kv.1 ≠ "run_id"
        ∧ (∀ c ∈ kv.1.data, c ≠ ' ') ∧ (∀ c ∈ kv.2.data, c ≠ ' ')) :
    parseFlags (parse_params ps) = some ps := by
  unfold parseFlags
  rw [pp_split ps h]
  exact parsePairsL_pairGroups ps

/-- Witness for the amended C4 at a concrete input. -/
theorem c4_witness :
    parseFlags (parse_params [("lr", "0.1"), ("momentum", "0.9")])
      = some [("lr", "0.1"), ("momentum", "0.9")] :=
  c4_round_trip [("lr", "0.1"), ("momentum", "0.9")] (by decide)

end Espresso
